import Mathlib

/-!
Verification development for the Med Interaction Map repository
(frontend `MedInteractionMapFinal` component and Next.js backend API).

The frontend data model, the pair-list builder, the grid-cell key
computation, the API client wrappers and the refresh coordinator are
embedded as executable Lean definitions, translated from the source.
String comparison (JS `localeCompare` / default `Array.sort`) is modelled
as code-point lexicographic order on the character data.
-/

namespace MedMap

/-- Frontend `CanonicalType` union (part_000 line 11). -/
inductive CanonicalType where
  | Drug
  | Supplement
  | Food
deriving DecidableEq, Repr

/-- Frontend `CanonicalItem` (part_000 line 12). -/
structure CanonicalItem where
  id : String
  display : String
  type : CanonicalType
  rxCui : Option String := none
  unii : Option String := none
deriving DecidableEq, Repr

/-- Frontend `Severity` union (part_000 line 13). -/
inductive Severity where
  | minor
  | moderate
  | major
  | contraindicated
deriving DecidableEq, Repr

/-- Frontend `Evidence` union (part_000 line 14). -/
inductive Evidence where
  | A
  | B
  | C
  | D
deriving DecidableEq, Repr

/-- Frontend `SourceRef` (part_000 line 15). -/
structure SourceRef where
  name : String
  url : String
  snippet : Option String := none
  retrieved : Option String := none
deriving DecidableEq, Repr

/-- Frontend `InteractionRecord` (part_000 lines 16-19). -/
structure InteractionRecord where
  a : CanonicalItem
  b : CanonicalItem
  severity : Severity
  guidance : String
  mechanism : Option String := none
  evidence : Evidence
  sources : List SourceRef := []
deriving DecidableEq, Repr

/-!
String comparison: JS `localeCompare` (used by the `gridItems` sort
comparator, line 74) and the default comparator of `Array.sort` (used by
the grid-cell key, line 190) are modelled as code-point lexicographic
comparison of the character lists.  `charListLe x y` holds iff the
comparison of `x` with `y` is ≤ 0.
-/

/-- Lexicographic ≤ on character lists by code point. -/
def charListLe : List Char → List Char → Bool
  | [], _ => true
  | _ :: _, [] => false
  | c :: cs, d :: ds =>
    if c.toNat < d.toNat then true
    else if d.toNat < c.toNat then false
    else charListLe cs ds

/-- String-level wrapper of `charListLe`. -/
def strLe (s t : String) : Bool := charListLe s.data t.data

/-- Comparator of the `gridItems` sort (line 74):
`(a, b) => a.display.localeCompare(b.display)` keeps `a` before `b`
iff the comparison is ≤ 0. -/
def dispLe (a b : CanonicalItem) : Bool := strLe a.display b.display

/-- Stable insertion into a sorted list; mirrors the behaviour of the
stable JS `Array.sort` with comparator `le`: an element moves past
another only when strictly required. -/
def insertSorted (le : α → α → Bool) (a : α) : List α → List α
  | [] => [a]
  | b :: t => if le a b then a :: b :: t else b :: insertSorted le a t

/-- Stable sort by comparator `le` (model of JS `Array.sort(cmp)`). -/
def sortByLe (le : α → α → Bool) : List α → List α
  | [] => []
  | a :: t => insertSorted le a (sortByLe le t)

/-- Function `gridItems` (line 74): the selection sorted by display name
(`[...selected].sort((a, b) => a.display.localeCompare(b.display))`). -/
def gridItems (selected : List CanonicalItem) : List CanonicalItem :=
  sortByLe dispLe selected

/-- One entry of `pairList` (line 76): `{ key, a, b }`. -/
structure PairEntry where
  key : String
  a : CanonicalItem
  b : CanonicalItem
deriving DecidableEq, Repr

/-- Function `pairList` (lines 75-85): the double loop over indices `i < j` of
`gridItems`, pushing `{ key: a.id + "|" + b.id, a, b }` for each pair.
The recursion `a :: rest ↦ pairs (a, ·) of rest ++ pairs of rest`
enumerates exactly the `i < j` index pairs in loop order. -/
def pairList : List CanonicalItem → List PairEntry
  | [] => []
  | a :: rest =>
    rest.map (fun b => { key := a.id ++ "|" ++ b.id, a := a, b := b }) ++ pairList rest

/-- Grid cell lookup key (line 190): `[row.id, col.id].sort().join("|")`;
the default JS sort keeps `rowId` first iff it compares ≤ `colId`. -/
def gridCellKey (rowId colId : String) : String :=
  if strLe rowId colId then rowId ++ "|" ++ colId else colId ++ "|" ++ rowId

/-- Arguments handed to the Interaction Client by the refresh effect
(line 96): `apiInteraction(p.a.display, p.b.display)`. -/
def refreshFetchArgs (p : PairEntry) : String × String :=
  (p.a.display, p.b.display)

/-!
Normalization client (`apiNormalize`, lines 33-38) and the debounced
search effect (lines 56-72).  The outcome of the `fetch`/`res.json()`
round trip is made explicit: a rejected fetch, a non-ok HTTP status
(`apiNormalize` throws on `!res.ok`), a JSON body that fails to parse,
or a parsed body whose `canonical` field is an array of items or
missing / not an array.
-/

/-- Possible outcomes of the `fetch` + `res.json()` round trip for the
normalization endpoint. `ok none` is a parsed body whose `canonical`
field is missing or not an array. -/
inductive NormFetch where
  | transportError
  | httpError (status : Nat)
  | badJson
  | ok (canonical : Option (List CanonicalItem))
deriving DecidableEq, Repr

/-- Which outcomes are transport errors or malformed payloads. -/
def normFetchFails : NormFetch → Bool
  | .ok (some _) => false
  | _ => true

/-- Client `apiNormalize` (lines 33-38): throws (`.error`) on a rejected fetch,
a non-ok status or a JSON parse failure; otherwise returns
`Array.isArray(json.canonical) ? json.canonical : []`. -/
def apiNormalize : NormFetch → Except String (List CanonicalItem)
  | .transportError => .error "fetch failed"
  | .httpError status => .error ("normalize: " ++ toString status)
  | .badJson => .error "json parse failed"
  | .ok canonical => .ok (canonical.getD [])

/-- Debounced search effect body (lines 56-69): empty trimmed query
short-circuits to `[]`; otherwise the suggestions become
`items.slice(0, 10)` on success and `[]` on a caught error. -/
def searchSuggestions (query : String) (outcome : NormFetch) : List CanonicalItem :=
  let q := query.trim
  if q = "" then []
  else
    match apiNormalize outcome with
    | .ok items => items.take 10
    | .error _ => []

/-!
Backend (`backend.js`).  `searchParams.get` yields `null` for a missing
parameter, so query parameters are `Option String`; JS string falsiness
(`!q`) holds for both `null` and `""`.
-/

/-- JS falsiness of a nullable string: `null` and `""` are falsy. -/
def strFalsy : Option String → Bool
  | none => true
  | some s => s = ""

/-- JS `x || d` on a nullable string: the default is taken when the
value is `null` or `""`. -/
def orDefault (s : Option String) (d : String) : String :=
  match s with
  | none => d
  | some v => if v = "" then d else v

/-- JS `x || null` on a nullable string: `""` collapses to `null`. -/
def orNull (s : Option String) : Option String :=
  match s with
  | none => none
  | some v => if v = "" then none else some v

/-- One candidate of the RxNorm approximate-term response
(`backend.js` lines 23-26). -/
structure RxCandidate where
  rxcui : String
  name : String
deriving DecidableEq, Repr

/-- Item pushed by `GET_normalize` (`backend.js` line 25):
`{ id: c.rxcui, display: c.name, type: "Drug", rxCui: c.rxcui }`.
The `type` field is the literal JSON string emitted by the backend. -/
structure BackendItem where
  id : String
  display : String
  type : String
  rxCui : Option String := none
deriving DecidableEq, Repr

/-- Endpoint `GET_normalize` (`backend.js` lines 12-35).  Upstream outcome:
`.error` = the RxNorm fetch or its JSON parse threw (caught, loop
skipped); `.ok none` = no `approximateGroup.candidate` field;
`.ok (some cs)` = the candidate list.  Returns the `canonical` array of
the response. -/
def GET_normalize (q : Option String)
    (upstream : Except Unit (Option (List RxCandidate))) : List BackendItem :=
  if strFalsy q then []
  else
    let candidates : List RxCandidate :=
      match upstream with
      | .ok (some cs) => cs
      | _ => []
    candidates.map (fun c =>
      { id := c.rxcui, display := c.name, type := "Drug", rxCui := some c.rxcui })

/-- One `interactionPair` of the RxNav interaction response
(`backend.js` lines 60-65); `severity` and `comment` may be absent. -/
structure RxPair where
  severity : Option String
  description : String
  comment : Option String
deriving DecidableEq, Repr

/-- Static source link pushed per interaction pair (`backend.js` line 64). -/
def rxnormSource : SourceRef := { name := "RxNorm", url := "https://rxnav.nlm.nih.gov/" }

/-- MedlinePlus Connect source link (`backend.js` lines 75-76); the URL
embeds parameter `a` (percent-encoding not modelled). -/
def medlineSource (a : String) : SourceRef :=
  { name := "MedlinePlus Connect"
    url := "https://connect.medlineplus.gov/service?mainSearchCriteria.v.c=" ++ a ++
      "&informationRecipient.languageCode.c=en" }

/-- OpenFDA/DailyMed source link (`backend.js` line 83). -/
def openFdaSource : SourceRef :=
  { name := "OpenFDA/DailyMed", url := "https://dailymed.nlm.nih.gov/dailymed/" }

/-- NCCIH source link (`backend.js` line 90). -/
def nccihSource : SourceRef :=
  { name := "NCCIH Herbs", url := "https://www.nccih.nih.gov/health/herbsataglance" }

/-- The triple loop over `fullInteractionTypeGroup` (`backend.js` lines
57-68), flattened to the sequence of `interactionPair`s it visits.  Each
iteration overwrites `severity` (as `(i.severity || "").toLowerCase()`),
`guidance` (as `i.description`) and `mechanism` (as `i.comment || null`)
and pushes one RxNorm source; the fold carries
`(severity, guidance, mechanism, sources)`. -/
def interactionLoop (pairsU : List RxPair) :
    Option String × Option String × Option String × List SourceRef :=
  pairsU.foldl
    (fun acc i =>
      ( some (orDefault i.severity "").toLower,
        some i.description,
        orNull i.comment,
        acc.2.2.2 ++ [rxnormSource] ))
    (none, none, none, [])

/-- Response shape of `GET_interactions`: `{}` or a record object. -/
inductive InteractionsResponse where
  | empty
  | record (a : BackendItem) (b : BackendItem) (severity : String) (guidance : String)
      (mechanism : Option String) (evidence : String) (sources : List SourceRef)
deriving DecidableEq, Repr

/-- Endpoint `GET_interactions` (`backend.js` lines 40-107).  Missing or empty
`a`/`b` (`!a || !b`) short-circuits to `{}` (line 44).  Upstream outcome
as in `GET_normalize`: `.error` = fetch/JSON threw (caught, loop
skipped); `.ok none` = no `fullInteractionTypeGroup`; `.ok (some ps)` =
flattened interaction pairs.  Otherwise the full record is returned with
`severity: severity || "minor"`, `guidance: guidance || "No interaction
details available"`, `evidence: "C"` and the accumulated sources plus
the three static links (lines 95-106). -/
def GET_interactions (a b : Option String)
    (upstream : Except Unit (Option (List RxPair))) : InteractionsResponse :=
  if strFalsy a || strFalsy b then .empty
  else
    let av := a.getD ""
    let bv := b.getD ""
    let pairsU : List RxPair :=
      match upstream with
      | .ok (some ps) => ps
      | _ => []
    let st := interactionLoop pairsU
    let severity := st.1
    let guidance := st.2.1
    let mechanism := st.2.2.1
    let rxSources := st.2.2.2
    .record
      { id := av, display := av, type := "Drug" }
      { id := bv, display := bv, type := "Drug" }
      (orDefault severity "minor")
      (orDefault guidance "No interaction details available")
      mechanism
      "C"
      (rxSources ++ [medlineSource av, openFdaSource, nccihSource])

/-- Severity field visible in a response, if any (`{}` has none); the
frontend `apiInteraction` (lines 42-44) treats a response as a record
iff `json.severity` is truthy, i.e. present and non-empty. -/
def respSeverity : InteractionsResponse → Option String
  | .empty => none
  | .record _ _ severity _ _ _ _ => some severity

/-- Frontend `apiInteraction` result interpretation (lines 42-44):
`json && json.severity ? json : null`. -/
def apiInteractionResult (resp : InteractionsResponse) : Option InteractionsResponse :=
  match respSeverity resp with
  | some s => if s = "" then none else some resp
  | none => none

/-!
Refresh coordinator (the effect of part_000 lines 88-111).

Per-pair lookup (lines 94-102): each pair's `apiInteraction` call either
resolves with `InteractionRecord | null` or throws; the inner
`try`/`catch` converts a throw into the entry `[p.key, null]`.
-/

/-- Outcome of one `apiInteraction(p.a.display, p.b.display)` call:
resolves with a record, resolves with `null`, or throws. -/
abbrev LookupOutcome := Except Unit (Option InteractionRecord)

/-- The inner `try`/`catch` of the refresh effect (lines 95-101):
a resolved lookup gives its value, a thrown one gives `null`. -/
def settleLookup : LookupOutcome → Option InteractionRecord
  | .ok r => r
  | .error _ => none

/-- The `Promise.all` batch of the refresh effect (lines 94-102): one
`[p.key, settled result]` entry per pair of the pair list, in order. -/
def refreshEntries (pl : List PairEntry) (lookup : PairEntry → LookupOutcome) :
    List (String × Option InteractionRecord) :=
  pl.map (fun p => (p.key, settleLookup (lookup p)))

/-- The interaction cache `pairs` (line 54), as the entry list passed to
`Object.fromEntries` / held in component state. -/
abbrev Cache := List (String × Option InteractionRecord)

/-!
Operational model of the effect across selection changes.

React re-runs the effect whenever its dependency (the joined pair-key
list, line 111) changes: it first runs the previous instance's cleanup —
which sets that instance's `cancelled` flag (line 110) — and then starts
a new instance.  Each instance is identified by a generation number
`gen`; `cancelled` collects the generations whose cleanup has run.  A
non-empty pair list starts a batch of lookups whose eventual entries are
fixed at dispatch time and parked in `pending`; an empty pair list calls
`setPairs({})` synchronously (line 91) and dispatches nothing.  When a
batch resolves, its entries replace the cache via
`setPairs(Object.fromEntries(entries))` — but only if the owning
instance's `cancelled` flag is still unset (line 103).
-/

/-- State of the refresh coordinator session. -/
structure CoordState where
  gen : Nat
  cancelled : List Nat
  cache : Cache
  pending : List (Nat × Cache)
deriving DecidableEq, Repr

/-- Initial session state: no effect has run yet. -/
def initState : CoordState :=
  { gen := 0, cancelled := [], cache := [], pending := [] }

/-- Dependency change (line 111): the previous effect instance is
cleaned up (its generation is cancelled, line 110) and a new instance
runs.  Empty pair list: `setPairs({})` synchronously, no lookup
dispatched (line 91).  Non-empty: the batch of per-pair lookups is
dispatched (lines 94-102); the cache is untouched until it resolves. -/
def changeStep (s : CoordState) (pl : List PairEntry)
    (lookup : PairEntry → LookupOutcome) : CoordState :=
  if pl.isEmpty then
    { gen := s.gen + 1, cancelled := s.gen :: s.cancelled, cache := [], pending := s.pending }
  else
    { gen := s.gen + 1, cancelled := s.gen :: s.cancelled, cache := s.cache,
      pending := (s.gen + 1, refreshEntries pl lookup) :: s.pending }

/-- A dispatched batch settles (lines 103-105): its entries replace the
cache iff the owning generation was not cancelled
(`if (!cancelled) setPairs(Object.fromEntries(entries))`). -/
def resolveStep (s : CoordState) (g : Nat) (entries : Cache) : CoordState :=
  { s with
    cache := if g ∈ s.cancelled then s.cache else entries,
    pending := s.pending.erase (g, entries) }

/-- One scheduler step of the session: a dependency change re-running
the effect, or the settling of an in-flight batch. -/
inductive Step : CoordState → CoordState → Prop
  | change (s : CoordState) (pl : List PairEntry) (lookup : PairEntry → LookupOutcome) :
      Step s (changeStep s pl lookup)
  | resolve (s : CoordState) (g : Nat) (entries : Cache)
      (h : (g, entries) ∈ s.pending) :
      Step s (resolveStep s g entries)

/-- States reachable from the initial session state. -/
def Reachable (s : CoordState) : Prop :=
  Relation.ReflTransGen Step initState s

/-- Session invariant: every generation older than the current one has
been cancelled, and no in-flight batch is newer than the current
generation. -/
def CoordInv (s : CoordState) : Prop :=
  (∀ g, g < s.gen → g ∈ s.cancelled) ∧ (∀ g e, (g, e) ∈ s.pending → g ≤ s.gen)

end MedMap

namespace MedMap

theorem charListLe_total : ∀ x y : List Char, charListLe x y = true ∨ charListLe y x = true
  | [], _ => Or.inl rfl
  | _ :: _, [] => Or.inr rfl
  | c :: cs, d :: ds => by
    simp only [charListLe]
    rcases Nat.lt_trichotomy c.toNat d.toNat with h | h | h
    · exact Or.inl (by rw [if_pos h])
    · rcases charListLe_total cs ds with ih | ih
      · exact Or.inl (by rw [if_neg (by omega), if_neg (by omega)]; exact ih)
      · exact Or.inr (by rw [if_neg (by omega), if_neg (by omega)]; exact ih)
    · exact Or.inr (by rw [if_pos h])

theorem charListLe_trans : ∀ x y z : List Char,
    charListLe x y = true → charListLe y z = true → charListLe x z = true
  | [], _, _, _, _ => rfl
  | _ :: _, [], _, h1, _ => by simp [charListLe] at h1
  | _ :: _, _ :: _, [], _, h2 => by simp [charListLe] at h2
  | c :: cs, d :: ds, e :: es, h1, h2 => by
    simp only [charListLe] at h1 h2 ⊢
    rcases Nat.lt_trichotomy c.toNat d.toNat with hcd | hcd | hcd
    · rcases Nat.lt_trichotomy d.toNat e.toNat with hde | hde | hde
      · rw [if_pos (Nat.lt_trans hcd hde)]
      · rw [if_pos (hde ▸ hcd)]
      · rw [if_neg (by omega), if_pos hde] at h2
        exact absurd h2 (by simp)
    · rw [if_neg (by omega), if_neg (by omega)] at h1
      rcases Nat.lt_trichotomy d.toNat e.toNat with hde | hde | hde
      · rw [if_pos (by omega)]
      · rw [if_neg (by omega), if_neg (by omega)] at h2
        rw [if_neg (by omega), if_neg (by omega)]
        exact charListLe_trans cs ds es h1 h2
      · rw [if_neg (by omega), if_pos (by omega)] at h2
        exact absurd h2 (by simp)
    · rw [if_neg (by omega), if_pos hcd] at h1
      exact absurd h1 (by simp)

theorem charListLe_antisymm : ∀ x y : List Char,
    charListLe x y = true → charListLe y x = true → x = y
  | [], [], _, _ => rfl
  | [], _ :: _, _, h2 => by simp [charListLe] at h2
  | _ :: _, [], h1, _ => by simp [charListLe] at h1
  | c :: cs, d :: ds, h1, h2 => by
    simp only [charListLe] at h1 h2
    rcases Nat.lt_trichotomy c.toNat d.toNat with h | h | h
    · rw [if_neg (by omega), if_pos (by omega)] at h2
      exact absurd h2 (by simp)
    · rw [if_neg (by omega), if_neg (by omega)] at h1
      rw [if_neg (by omega), if_neg (by omega)] at h2
      have hchar : c = d := Char.eq_of_val_eq (UInt32.toNat.inj h)
      rw [hchar, charListLe_antisymm cs ds h1 h2]
    · rw [if_neg (by omega), if_pos (by omega)] at h1
      exact absurd h1 (by simp)

theorem strLe_total (s t : String) : strLe s t = true ∨ strLe t s = true :=
  charListLe_total s.data t.data

theorem strLe_trans {s t u : String} (h1 : strLe s t = true) (h2 : strLe t u = true) :
    strLe s u = true :=
  charListLe_trans s.data t.data u.data h1 h2

theorem strLe_antisymm {s t : String} (h1 : strLe s t = true) (h2 : strLe t s = true) :
    s = t := by
  have hd := charListLe_antisymm s.data t.data h1 h2
  cases s; cases t; exact congrArg String.mk hd

theorem insertSorted_perm {α : Type} (le : α → α → Bool) (a : α) :
    ∀ l : List α, List.Perm (insertSorted le a l) (a :: l)
  | [] => List.Perm.refl _
  | b :: t => by
    cases hle : le a b with
    | true => simp [insertSorted, hle]
    | false =>
      simp only [insertSorted, hle, Bool.false_eq_true, if_false]
      exact ((insertSorted_perm le a t).cons b).trans (List.Perm.swap a b t)

theorem sortByLe_perm {α : Type} (le : α → α → Bool) :
    ∀ l : List α, List.Perm (sortByLe le l) l
  | [] => List.Perm.refl _
  | a :: t => (insertSorted_perm le a (sortByLe le t)).trans ((sortByLe_perm le t).cons a)

theorem insertSorted_pairwise {α : Type} {le : α → α → Bool}
    (htot : ∀ x y, le x y = true ∨ le y x = true)
    (htr : ∀ x y z, le x y = true → le y z = true → le x z = true) (a : α) :
    ∀ l : List α, List.Pairwise (fun x y => le x y = true) l →
      List.Pairwise (fun x y => le x y = true) (insertSorted le a l)
  | [], _ => by simp [insertSorted]
  | b :: t, h => by
    obtain ⟨hb, ht⟩ := List.pairwise_cons.mp h
    cases hle : le a b with
    | true =>
      simp only [insertSorted, hle, if_true]
      refine List.pairwise_cons.mpr ⟨?_, h⟩
      intro x hx
      rcases List.mem_cons.mp hx with rfl | hx
      · exact hle
      · exact htr a b x hle (hb x hx)
    | false =>
      simp only [insertSorted, hle, Bool.false_eq_true, if_false]
      have hba : le b a = true := (htot a b).resolve_left (by simp [hle])
      refine List.pairwise_cons.mpr ⟨?_, insertSorted_pairwise htot htr a t ht⟩
      intro x hx
      rcases List.mem_cons.mp ((insertSorted_perm le a t).mem_iff.mp hx) with hx1 | hx1
      · exact hx1 ▸ hba
      · exact hb x hx1
    
theorem sortByLe_pairwise {α : Type} {le : α → α → Bool}
    (htot : ∀ x y, le x y = true ∨ le y x = true)
    (htr : ∀ x y z, le x y = true → le y z = true → le x z = true) :
    ∀ l : List α, List.Pairwise (fun x y => le x y = true) (sortByLe le l)
  | [] => List.Pairwise.nil
  | a :: t => insertSorted_pairwise htot htr a _ (sortByLe_pairwise htot htr t)

theorem eq_of_perm_of_pairwise {α : Type} {R : α → α → Prop} :
    ∀ {l1 l2 : List α}, List.Perm l1 l2 → List.Pairwise R l1 → List.Pairwise R l2 →
      (∀ a ∈ l1, ∀ b ∈ l1, R a b → R b a → a = b) → l1 = l2
  | [], l2, hp, _, _, _ => (List.Perm.nil_eq hp)
  | a :: t1, [], hp, _, _, _ => absurd (hp.symm) (by simp [List.Perm.nil_eq]) 
  | a :: t1, b :: t2, hp, h1, h2, hanti => by
    by_cases hab : a = b
    · subst hab
      have ht : t1 = t2 :=
        eq_of_perm_of_pairwise hp.cons_inv (List.pairwise_cons.mp h1).2
          (List.pairwise_cons.mp h2).2
          (fun x hx y hy => hanti x (List.mem_cons_of_mem a hx) y (List.mem_cons_of_mem a hy))
      rw [ht]
    · exfalso
      have ha2 : a ∈ b :: t2 := hp.mem_iff.mp (List.mem_cons_self a t1)
      have hb1 : b ∈ a :: t1 := hp.symm.mem_iff.mp (List.mem_cons_self b t2)
      have hat2 : a ∈ t2 := by
        rcases List.mem_cons.mp ha2 with h | h
        · exact absurd h hab
        · exact h
      have hbt1 : b ∈ t1 := by
        rcases List.mem_cons.mp hb1 with h | h
        · exact absurd h.symm hab
        · exact h
      have hRab : R a b := List.rel_of_pairwise_cons h1 hbt1
      have hRba : R b a := List.rel_of_pairwise_cons h2 hat2
      exact hab (hanti a (List.mem_cons_self a t1) b (List.mem_cons_of_mem a hbt1) hRab hRba)

end MedMap

namespace MedMap

theorem dispLe_total (a b : CanonicalItem) : dispLe a b = true ∨ dispLe b a = true :=
  strLe_total a.display b.display

theorem dispLe_trans {a b c : CanonicalItem} (h1 : dispLe a b = true)
    (h2 : dispLe b c = true) : dispLe a c = true :=
  strLe_trans h1 h2

theorem gridItems_perm (sel : List CanonicalItem) : List.Perm (gridItems sel) sel :=
  sortByLe_perm dispLe sel

theorem gridItems_pairwise (sel : List CanonicalItem) :
    List.Pairwise (fun x y => dispLe x y = true) (gridItems sel) :=
  sortByLe_pairwise dispLe_total (fun _ _ _ => dispLe_trans) sel

/-- With pairwise-distinct display names the sorted selection is a
function of the selection as a set: any two insertion orders of the
same items sort to the same list. -/
theorem gridItems_eq_of_perm {sel1 sel2 : List CanonicalItem}
    (hperm : List.Perm sel1 sel2)
    (hnd : (sel1.map (fun i => i.display)).Nodup) :
    gridItems sel1 = gridItems sel2 := by
  have hg : List.Perm (gridItems sel1) (gridItems sel2) :=
    (gridItems_perm sel1).trans (hperm.trans (gridItems_perm sel2).symm)
  refine eq_of_perm_of_pairwise hg (gridItems_pairwise sel1) (gridItems_pairwise sel2) ?_
  intro a ha b hb hab hba
  have hdisp : a.display = b.display := strLe_antisymm hab hba
  have hnd1 : ((gridItems sel1).map (fun i => i.display)).Nodup := by
    have := (gridItems_perm sel1).map (fun i : CanonicalItem => i.display)
    exact (this.nodup_iff).mpr hnd
  exact List.inj_on_of_nodup_map hnd1 ha hb hdisp

end MedMap

namespace MedMap

theorem pairList_double_length :
    ∀ l : List CanonicalItem, 2 * (pairList l).length = l.length * (l.length - 1)
  | [] => rfl
  | a :: t => by
    have ih := pairList_double_length t
    simp only [pairList, List.length_append, List.length_map, List.length_cons]
    cases hn : t.length with
    | zero =>
      rw [hn] at ih
      simp only [Nat.zero_sub, Nat.mul_zero, Nat.zero_mul] at ih
      omega
    | succ m =>
      rw [hn] at ih
      have hring : (m + 1 + 1) * (m + 1 + 1 - 1) = 2 * (m + 1) + (m + 1) * (m + 1 - 1) := by
        simp only [Nat.add_sub_cancel]
        ring
      omega

theorem mem_pairList : ∀ (l : List CanonicalItem) (e : PairEntry), e ∈ pairList l →
    e.a ∈ l ∧ e.b ∈ l ∧ e.key = e.a.id ++ "|" ++ e.b.id
  | [], e, h => by simp [pairList] at h
  | a :: t, e, h => by
    rcases List.mem_append.mp h with h | h
    · obtain ⟨b, hb, rfl⟩ := List.mem_map.mp h
      exact ⟨List.mem_cons_self a t, List.mem_cons_of_mem a hb, rfl⟩
    · obtain ⟨ha, hb, hk⟩ := mem_pairList t e h
      exact ⟨List.mem_cons_of_mem a ha, List.mem_cons_of_mem a hb, hk⟩

theorem pairList_exists_pair : ∀ (l : List CanonicalItem) (x y : CanonicalItem),
    x ∈ l → y ∈ l → x ≠ y →
    ∃ e ∈ pairList l, (e.a = x ∧ e.b = y) ∨ (e.a = y ∧ e.b = x)
  | [], x, y, hx, _, _ => by simp at hx
  | a :: t, x, y, hx, hy, hxy => by
    rcases List.mem_cons.mp hx with hxa | hx
    · have hyt : y ∈ t := by
        rcases List.mem_cons.mp hy with hya | h
        · exact absurd (hxa.trans hya.symm) hxy
        · exact h
      exact ⟨{ key := a.id ++ "|" ++ y.id, a := a, b := y },
        List.mem_append.mpr (Or.inl (List.mem_map.mpr ⟨y, hyt, rfl⟩)),
        Or.inl ⟨hxa.symm, rfl⟩⟩
    · rcases List.mem_cons.mp hy with hya | hy
      · exact ⟨{ key := a.id ++ "|" ++ x.id, a := a, b := x },
          List.mem_append.mpr (Or.inl (List.mem_map.mpr ⟨x, hx, rfl⟩)),
          Or.inr ⟨hya.symm, rfl⟩⟩
      · obtain ⟨e, he, hor⟩ := pairList_exists_pair t x y hx hy hxy
        exact ⟨e, List.mem_append.mpr (Or.inr he), hor⟩

theorem pipe_splice_inj : ∀ (s1 t1 s2 t2 : List Char), '|' ∉ s1 → '|' ∉ t1 →
    s1 ++ '|' :: s2 = t1 ++ '|' :: t2 → s1 = t1 ∧ s2 = t2
  | [], [], s2, t2, _, _, h => ⟨rfl, by simpa using h⟩
  | [], c :: t1, s2, t2, _, hpt, h => by
    simp only [List.nil_append, List.cons_append, List.cons.injEq] at h
    exact absurd (h.1 ▸ List.mem_cons_self c t1 : ('|' : Char) ∈ c :: t1) hpt
  | c :: s1, [], s2, t2, hps, _, h => by
    simp only [List.nil_append, List.cons_append, List.cons.injEq] at h
    exact absurd (h.1 ▸ List.mem_cons_self c s1 : ('|' : Char) ∈ c :: s1) hps
  | c :: s1, d :: t1, s2, t2, hps, hpt, h => by
    simp only [List.cons_append, List.cons.injEq] at h
    obtain ⟨rfl, h⟩ := h
    obtain ⟨h1, h2⟩ := pipe_splice_inj s1 t1 s2 t2
      (fun hm => hps (List.mem_cons_of_mem c hm))
      (fun hm => hpt (List.mem_cons_of_mem c hm)) h
    exact ⟨by rw [h1], h2⟩

/-- The pair key `a.id + "|" + b.id` determines both member ids when
the left id contains no `"|"` separator character. -/
theorem pairKey_inj {x y u v : String} (hx : '|' ∉ x.data) (hu : '|' ∉ u.data)
    (h : x ++ "|" ++ y = u ++ "|" ++ v) : x = u ∧ y = v := by
  have hdata : x.data ++ '|' :: y.data = u.data ++ '|' :: v.data := by
    have h1 := congrArg String.data h
    simpa [String.data_append, List.append_assoc] using h1
  obtain ⟨h1, h2⟩ := pipe_splice_inj x.data u.data y.data v.data hx hu hdata
  constructor
  · cases x; cases u; exact congrArg String.mk h1
  · cases y; cases v; exact congrArg String.mk h2

theorem pairList_keys_nodup : ∀ l : List CanonicalItem,
    (l.map (fun i => i.id)).Nodup → (∀ x ∈ l, ('|' : Char) ∉ x.id.data) →
    ((pairList l).map (fun e => e.key)).Nodup
  | [], _, _ => List.Pairwise.nil
  | a :: t, hids, hpipe => by
    have hida : a.id ∉ t.map (fun i => i.id) := (List.nodup_cons.mp hids).1
    have hidt : (t.map (fun i => i.id)).Nodup := (List.nodup_cons.mp hids).2
    have hpa : ('|' : Char) ∉ a.id.data := hpipe a (List.mem_cons_self a t)
    have hpt : ∀ x ∈ t, ('|' : Char) ∉ x.id.data :=
      fun x hx => hpipe x (List.mem_cons_of_mem a hx)
    simp only [pairList, List.map_append, List.map_map]
    refine List.nodup_append.mpr ⟨?_, pairList_keys_nodup t hidt hpt, ?_⟩
    · -- keys of the pairs (a, b) for b ∈ t
      refine List.Nodup.map_on ?_ (List.Nodup.of_map _ hidt)
      intro x hx y hy hkey
      have hxid : x.id = y.id :=
        (pairKey_inj hpa hpa (by simpa using hkey)).2
      exact List.inj_on_of_nodup_map hidt hx hy hxid
    · -- disjointness of the two key blocks
      intro k hk1 hk2
      obtain ⟨b, hb, hbk⟩ := List.mem_map.mp hk1
      obtain ⟨e, he, hek⟩ := List.mem_map.mp hk2
      obtain ⟨hea, _, hkey⟩ := mem_pairList t e he
      have hpea : ('|' : Char) ∉ e.a.id.data := hpt e.a hea
      have : a.id = e.a.id := by
        have heq : a.id ++ "|" ++ b.id = e.a.id ++ "|" ++ e.b.id := by
          rw [← hkey]; simp at hbk hek; rw [hbk, hek]
        exact (pairKey_inj hpa hpea heq).1
      exact hida (this ▸ List.mem_map.mpr ⟨e.a, hea, rfl⟩)

end MedMap

namespace MedMap

theorem coordInv_init : CoordInv initState := by
  constructor
  · intro g hg; simp [initState] at hg
  · intro g e hmem; simp [initState] at hmem

theorem coordInv_change {s : CoordState} (hs : CoordInv s) (pl : List PairEntry)
    (lookup : PairEntry → LookupOutcome) : CoordInv (changeStep s pl lookup) := by
  obtain ⟨hc, hp⟩ := hs
  have hcanc : ∀ g, g < s.gen + 1 → g ∈ s.gen :: s.cancelled := by
    intro g hg
    rcases Nat.lt_succ_iff_lt_or_eq.mp hg with h | h
    · exact List.mem_cons_of_mem _ (hc g h)
    · exact h ▸ List.mem_cons_self _ _
  cases pl with
  | nil =>
    simp only [changeStep, List.isEmpty_nil, if_true]
    exact ⟨hcanc, fun g e hmem => Nat.le_succ_of_le (hp g e hmem)⟩
  | cons hd tl =>
    simp only [changeStep, List.isEmpty_cons, if_false]
    refine ⟨hcanc, ?_⟩
    intro g e hmem
    rcases List.mem_cons.mp hmem with h | h
    · exact le_of_eq (congrArg Prod.fst h)
    · exact Nat.le_succ_of_le (hp g e h)

theorem coordInv_step {s t : CoordState} (hst : Step s t) (hs : CoordInv s) : CoordInv t := by
  cases hst with
  | change pl lookup => exact coordInv_change hs pl lookup
  | resolve g entries hmem =>
    exact ⟨hs.1, fun g' e' hmem' => hs.2 g' e' (List.mem_of_mem_erase hmem')⟩

theorem coordInv_reachable {s : CoordState} (hs : Reachable s) : CoordInv s := by
  induction hs with
  | refl => exact coordInv_init
  | tail _ hstep ih => exact coordInv_step hstep ih

theorem step_gen_le {s t : CoordState} (hst : Step s t) : s.gen ≤ t.gen := by
  cases hst with
  | change pl lookup =>
    cases pl with
    | nil => simp [changeStep]
    | cons hd tl => simp [changeStep]
  | resolve g entries hmem => exact le_refl _

theorem rtg_gen_le {s t : CoordState} (h : Relation.ReflTransGen Step s t) : s.gen ≤ t.gen := by
  induction h with
  | refl => exact le_refl _
  | tail _ hstep ih => exact le_trans ih (step_gen_le hstep)

theorem stale_resolve_cache_eq {s : CoordState} (hs : Reachable s)
    {g : Nat} {e : Cache} (hmem : (g, e) ∈ s.pending) (hne : g ≠ s.gen) :
    (resolveStep s g e).cache = s.cache := by
  obtain ⟨hc, hp⟩ := coordInv_reachable hs
  have hlt : g < s.gen := lt_of_le_of_ne (hp g e hmem) hne
  simp [resolveStep, hc g hlt]

end MedMap

namespace MedMap

/-!
Concrete items and states used by counterexamples and witnesses.
-/

/-- Aspirin with a numeric RxNorm-style id. -/
def aspirinItem : CanonicalItem := { id := "9", display := "Aspirin", type := .Drug }

/-- Warfarin with a numeric RxNorm-style id. -/
def warfarinItem : CanonicalItem := { id := "10", display := "Warfarin", type := .Drug }

/-- Warfarin with symbolic id `w`. -/
def itemW : CanonicalItem := { id := "w", display := "Warfarin", type := .Drug }

/-- Aspirin with symbolic id `a`. -/
def itemA : CanonicalItem := { id := "a", display := "Aspirin", type := .Drug }

/-- Celecoxib with symbolic id `c`. -/
def itemC : CanonicalItem := { id := "c", display := "Celecoxib", type := .Drug }

/-- Lookup in which every pair resolves with `null`. -/
def lkNone : PairEntry → LookupOutcome := fun _ => Except.ok none

/-- Pair list of the two-item selection `{Warfarin, Aspirin}`. -/
def PL1 : List PairEntry := pairList (gridItems [itemW, itemA])

/-- Pair list of the three-item selection `{Warfarin, Aspirin, Celecoxib}`. -/
def PL2 : List PairEntry := pairList (gridItems [itemW, itemA, itemC])

/-- Entries of the generation-1 batch. -/
def E1 : Cache := refreshEntries PL1 lkNone

/-- State after the first refresh effect run (generation 1 in flight). -/
def S1 : CoordState := changeStep initState PL1 lkNone

/-- State after a second selection change arrives before generation 1
resolves (generation 2 in flight, generation 1 abandoned). -/
def S2 : CoordState := changeStep S1 PL2 lkNone

theorem reachS1 : Reachable S1 :=
  Relation.ReflTransGen.single (Step.change initState PL1 lkNone)

theorem reachS2 : Reachable S2 :=
  Relation.ReflTransGen.tail reachS1 (Step.change S1 PL2 lkNone)

end MedMap

namespace MedMap

/-- Claim C1 (code bug): the cache key written by the refresh
coordinator is `a.id + "|" + b.id` in display-sort order (line 81), but
the matrix cell looks its value up under the id-sorted key
`[row.id, col.id].sort().join("|")` (line 190).  For the selection
`{Aspirin(id 9), Warfarin(id 10)}` the cached key is `"9|10"` while the
cell lookup key is `"10|9"` (in both row/column orders), so the lookup
misses the cached result; the claim that the two keys coincide (both
being the sorted-id key) fails on the code. -/
theorem c1_cache_key_differs_from_lookup_key :
    (pairList (gridItems [aspirinItem, warfarinItem])).map (fun e => e.key) = ["9|10"] ∧
    gridCellKey aspirinItem.id warfarinItem.id = "10|9" ∧
    gridCellKey warfarinItem.id aspirinItem.id = "10|9" ∧
    ("9|10" : String) ≠ "10|9" := by
  decide

/-- Claim C2: a completed per-pair batch is merged into the cache only
if its originating generation is still the current one; resolving a
batch whose generation is no longer current leaves the cache
unchanged, in every reachable session state. -/
theorem c2_stale_generation_never_merged (s : CoordState) (hs : Reachable s)
    (g : Nat) (entries : Cache) (hmem : (g, entries) ∈ s.pending)
    (hstale : g ≠ s.gen) :
    (resolveStep s g entries).cache = s.cache :=
  stale_resolve_cache_eq hs hmem hstale

/-- Witness for C2: selection `{W,A}` starts generation 1; the
selection grows to `{W,A,C}` before generation 1 resolves; the late
arrival of generation 1's result does not change the cache. -/
theorem c2_stale_generation_never_merged_witness :
    (resolveStep S2 1 E1).cache = S2.cache :=
  c2_stale_generation_never_merged S2 reachS2 1 E1 (by decide) (by decide)

end MedMap

namespace MedMap

/-- JS `x || d` with a non-empty default never yields the empty string. -/
theorem orDefault_ne_empty (s : Option String) (d : String) (hd : d ≠ "") :
    orDefault s d ≠ "" := by
  cases s with
  | none => exact hd
  | some v =>
    simp only [orDefault]
    by_cases hv : v = ""
    · rw [if_pos hv]; exact hd
    · rw [if_neg hv]; exact hv

/-- Counterexample to claim C3: with both parameters present but the
upstream interaction lookup reporting no record (`.ok none`, i.e. no
`fullInteractionTypeGroup`), the endpoint does NOT return `{}`: it
returns a record object whose severity defaults to `"minor"`.  The
claim's "the empty object is returned … when no record is found" fails
on the code. -/
theorem c3_no_record_not_empty_counterexample :
    respSeverity (GET_interactions (some "11289") (some "1191") (Except.ok none)) =
      some "minor" ∧
    GET_interactions (some "11289") (some "1191") (Except.ok none) ≠
      InteractionsResponse.empty := by
  decide

/-- Claim C3 as amended: the interaction endpoint returns `{}` exactly
when parameter `a` or `b` is missing or empty; whenever both are
present and non-empty the response is a record object carrying a
non-empty (truthy) severity field — even when no record is found
upstream, in which case the severity defaults to `"minor"`. -/
theorem c3_empty_iff_param_missing (a b : Option String)
    (upstream : Except Unit (Option (List RxPair))) :
    (GET_interactions a b upstream = InteractionsResponse.empty ↔
      (strFalsy a || strFalsy b) = true) ∧
    ((strFalsy a || strFalsy b) = false →
      ∃ sev, respSeverity (GET_interactions a b upstream) = some sev ∧ sev ≠ "") := by
  by_cases hf : (strFalsy a || strFalsy b) = true
  · constructor
    · simp [GET_interactions, hf]
    · intro hff
      rw [hf] at hff
      cases hff
  · have hf2 : (strFalsy a || strFalsy b) = false := by
      simpa using hf
    constructor
    · simp [GET_interactions, hf2]
    · intro _
      refine ⟨orDefault (interactionLoop (match upstream with
        | .ok (some ps) => ps
        | _ => [])).1 "minor", ?_, ?_⟩
      · simp [GET_interactions, hf2, respSeverity]
      · exact orDefault_ne_empty _ _ (by decide)

/-- Witness for the amended C3: both parameters present, upstream
reports nothing, and the response still carries the non-empty severity
field. -/
theorem c3_empty_iff_param_missing_witness :
    ∃ sev, respSeverity (GET_interactions (some "11289") (some "1191") (Except.ok none)) =
      some sev ∧ sev ≠ "" :=
  (c3_empty_iff_param_missing (some "11289") (some "1191") (Except.ok none)).2 (by decide)

/-- Claim C4 (code bug): the refresh coordinator calls the Interaction
Client with the pair members' display names
(`apiInteraction(p.a.display, p.b.display)`, line 96), not their
canonical ids as the claim (and the backend, which feeds these values
into an `rxcuis=` query) requires.  For the selection
`{Warfarin(id w), Aspirin(id a)}` the arguments are
`("Aspirin", "Warfarin")` while the pair's ids are `("a", "w")`. -/
theorem c4_lookup_args_are_displays_not_ids :
    (pairList (gridItems [itemW, itemA])).map refreshFetchArgs = [("Aspirin", "Warfarin")] ∧
    (pairList (gridItems [itemW, itemA])).map (fun e => (e.a.id, e.b.id)) = [("a", "w")] ∧
    (("Aspirin", "Warfarin") : String × String) ≠ ("a", "w") := by
  decide

end MedMap

namespace MedMap

/-- Claim C5: within one refresh batch, a pair whose lookup throws
contributes the entry `(its key, null)` — and only that entry differs:
every other pair's entry is computed from that pair's own lookup
outcome alone, so it is identical to what it would have been had the
failing pair not failed. -/
theorem c5_pair_failure_isolated (pl : List PairEntry)
    (lookup lookup2 : PairEntry → LookupOutcome) (p : PairEntry)
    (hp : p ∈ pl) (hfail : lookup2 p = Except.error ())
    (hagree : ∀ q, q ≠ p → lookup2 q = lookup q) :
    (p.key, (none : Option InteractionRecord)) ∈ refreshEntries pl lookup2 ∧
    ∀ i, (hi : i < pl.length) → pl.get ⟨i, hi⟩ ≠ p →
      (refreshEntries pl lookup2).get ⟨i, by simpa [refreshEntries] using hi⟩ =
        (refreshEntries pl lookup).get ⟨i, by simpa [refreshEntries] using hi⟩ := by
  constructor
  · exact List.mem_map.mpr ⟨p, hp, by rw [hfail]; rfl⟩
  · intro i hi hne
    simp only [refreshEntries, List.get_eq_getElem, List.getElem_map]
    rw [hagree _ (by simpa [List.get_eq_getElem] using hne)]

/-- Pair entry `{Aspirin, Warfarin}` used by the C5 witness. -/
def pairAW : PairEntry := { key := "a|w", a := itemA, b := itemW }

/-- Pair entry `{Aspirin, Celecoxib}` used by the C5 witness. -/
def pairAC : PairEntry := { key := "a|c", a := itemA, b := itemC }

/-- Lookup failing exactly on the `{Aspirin, Warfarin}` pair. -/
def lkFailAW : PairEntry → LookupOutcome :=
  fun q => if q = pairAW then Except.error () else lkNone q

/-- Witness for C5: in the two-pair batch, the failing pair caches
`null` under its own key and the sibling pair's entry is unchanged. -/
theorem c5_pair_failure_isolated_witness :
    (pairAW.key, (none : Option InteractionRecord)) ∈
      refreshEntries [pairAW, pairAC] lkFailAW ∧
    (refreshEntries [pairAW, pairAC] lkFailAW).get ⟨1, by decide⟩ =
      (refreshEntries [pairAW, pairAC] lkNone).get ⟨1, by decide⟩ :=
  ⟨(c5_pair_failure_isolated [pairAW, pairAC] lkNone lkFailAW pairAW (by decide)
      (by simp [lkFailAW]) (fun q hq => by simp [lkFailAW, hq])).1,
    (c5_pair_failure_isolated [pairAW, pairAC] lkNone lkFailAW pairAW (by decide)
      (by simp [lkFailAW]) (fun q hq => by simp [lkFailAW, hq])).2 1 (by decide) (by decide)⟩

/-- Claim C6: when the pair list becomes empty the effect clears the
cache synchronously (before any asynchronous work) and dispatches no
lookup; and any batch that was in flight beforehand belongs to an older
generation, so resolving it at any later point never changes the cache. -/
theorem c6_empty_pairlist_clears_cache (s : CoordState) (hs : Reachable s)
    (lookup : PairEntry → LookupOutcome) :
    (changeStep s [] lookup).cache = [] ∧
    (changeStep s [] lookup).pending = s.pending ∧
    ∀ t, Relation.ReflTransGen Step (changeStep s [] lookup) t →
      ∀ g e, (g, e) ∈ s.pending → (g, e) ∈ t.pending →
        (resolveStep t g e).cache = t.cache := by
  refine ⟨by simp [changeStep], by simp [changeStep], ?_⟩
  intro t hrt g e hmem hmemt
  have hreach : Reachable t :=
    Relation.ReflTransGen.trans
      (Relation.ReflTransGen.tail hs (Step.change s [] lookup)) hrt
  have hle : g ≤ s.gen := (coordInv_reachable hs).2 g e hmem
  have hgen1 : (changeStep s [] lookup).gen = s.gen + 1 := by simp [changeStep]
  have hgent : s.gen + 1 ≤ t.gen := hgen1 ▸ rtg_gen_le hrt
  exact stale_resolve_cache_eq hreach hmemt (by omega)

/-- Witness for C6: from the in-flight generation-1 state, emptying the
selection clears the cache at once and the late generation-1 result is
not honored. -/
theorem c6_empty_pairlist_clears_cache_witness :
    (changeStep S1 [] lkNone).cache = [] ∧
    (resolveStep (changeStep S1 [] lkNone) 1 E1).cache = (changeStep S1 [] lkNone).cache :=
  ⟨(c6_empty_pairlist_clears_cache S1 reachS1 lkNone).1,
    (c6_empty_pairlist_clears_cache S1 reachS1 lkNone).2.2 (changeStep S1 [] lkNone)
      Relation.ReflTransGen.refl 1 E1 (by decide) (by decide)⟩

end MedMap

namespace MedMap

/-- Item with display `Dup` and id `1`, for the C7 counterexample. -/
def dupItem1 : CanonicalItem := { id := "1", display := "Dup", type := .Drug }

/-- Item with display `Dup` and id `2`, for the C7 counterexample. -/
def dupItem2 : CanonicalItem := { id := "2", display := "Dup", type := .Drug }

/-- Counterexample to claim C7: the sort comparator compares only
display names and JS `Array.sort` is stable, so two distinct items with
the same display name keep their insertion order.  The same two-item
selection added in the two possible orders yields two different pair
lists (keys `"1|2"` vs `"2|1"`). -/
theorem c7_insertion_order_counterexample :
    List.Perm [dupItem1, dupItem2] [dupItem2, dupItem1] ∧
    pairList (gridItems [dupItem1, dupItem2]) ≠ pairList (gridItems [dupItem2, dupItem1]) :=
  ⟨List.Perm.swap dupItem2 dupItem1 [], by decide⟩

/-- Claim C7 as amended: provided the selected items' display names are
pairwise distinct (so the display comparator never ties), any two
insertion orders of the same selection set produce the same sorted grid
and hence the same pair list in the same order. -/
theorem c7_pairlist_order_independent (sel1 sel2 : List CanonicalItem)
    (hperm : List.Perm sel1 sel2)
    (hnd : (sel1.map (fun i => i.display)).Nodup) :
    gridItems sel1 = gridItems sel2 ∧
    pairList (gridItems sel1) = pairList (gridItems sel2) := by
  have h := gridItems_eq_of_perm hperm hnd
  exact ⟨h, by rw [h]⟩

/-- Witness for the amended C7: `{Warfarin, Aspirin}` added in either
order gives the same pair list. -/
theorem c7_pairlist_order_independent_witness :
    gridItems [itemW, itemA] = gridItems [itemA, itemW] ∧
    pairList (gridItems [itemW, itemA]) = pairList (gridItems [itemA, itemW]) :=
  c7_pairlist_order_independent [itemW, itemA] [itemA, itemW]
    (List.Perm.swap itemA itemW []) (by decide)

/-- Selection items with `"|"` inside ids, for the C8 counterexample. -/
def pipeItem1 : CanonicalItem := { id := "x", display := "a", type := .Drug }

/-- Second item of the C8 counterexample selection. -/
def pipeItem2 : CanonicalItem := { id := "y|z", display := "b", type := .Drug }

/-- Third item of the C8 counterexample selection. -/
def pipeItem3 : CanonicalItem := { id := "x|y", display := "c", type := .Drug }

/-- Fourth item of the C8 counterexample selection. -/
def pipeItem4 : CanonicalItem := { id := "z", display := "d", type := .Drug }

/-- Counterexample to claim C8: ids are opaque strings, and the pair
key is the plain `"|"`-join of two ids, so a selection of four items
with pairwise-distinct ids `x`, `y|z`, `x|y`, `z` produces the key
`"x|y|z"` twice — the pair-key list has a duplicate even though the
selection is unique by id. -/
theorem c8_duplicate_keys_counterexample :
    (([pipeItem1, pipeItem2, pipeItem3, pipeItem4].map (fun i => i.id)).Nodup) ∧
    ¬ ((pairList (gridItems [pipeItem1, pipeItem2, pipeItem3, pipeItem4])).map
        (fun e => e.key)).Nodup := by
  decide

/-- Claim C8 as amended: for a selection of `n` items unique by id whose
ids do not contain the `"|"` separator character, the pair list has
exactly `n·(n−1)/2` entries, its keys are pairwise distinct, and it
contains an entry for every unordered 2-combination of the selection. -/
theorem c8_pairlist_complete_nodup (sel : List CanonicalItem)
    (hids : (sel.map (fun i => i.id)).Nodup)
    (hpipe : ∀ x ∈ sel, ('|' : Char) ∉ x.id.data) :
    (pairList (gridItems sel)).length = sel.length * (sel.length - 1) / 2 ∧
    ((pairList (gridItems sel)).map (fun e => e.key)).Nodup ∧
    ∀ x ∈ sel, ∀ y ∈ sel, x ≠ y →
      ∃ e ∈ pairList (gridItems sel), (e.a = x ∧ e.b = y) ∨ (e.a = y ∧ e.b = x) := by
  have hperm := gridItems_perm sel
  refine ⟨?_, ?_, ?_⟩
  · have h2 := pairList_double_length (gridItems sel)
    rw [hperm.length_eq] at h2
    rw [← h2]
    omega
  · apply pairList_keys_nodup
    · exact ((hperm.map (fun i : CanonicalItem => i.id)).nodup_iff).mpr hids
    · intro x hx
      exact hpipe x (hperm.mem_iff.mp hx)
  · intro x hx y hy hxy
    exact pairList_exists_pair (gridItems sel) x y (hperm.mem_iff.mpr hx)
      (hperm.mem_iff.mpr hy) hxy

/-- Witness for the amended C8: three pipe-free unique-id items give
three pairs with pairwise-distinct keys. -/
theorem c8_pairlist_complete_nodup_witness :
    (pairList (gridItems [itemW, itemA, itemC])).length = 3 * (3 - 1) / 2 ∧
    ((pairList (gridItems [itemW, itemA, itemC])).map (fun e => e.key)).Nodup :=
  ⟨(c8_pairlist_complete_nodup [itemW, itemA, itemC] (by decide) (by decide)).1,
    (c8_pairlist_complete_nodup [itemW, itemA, itemC] (by decide) (by decide)).2.1⟩

/-- Claim C9: every transport error (rejected fetch or non-ok status),
JSON parse failure, or payload without a `canonical` array yields empty
suggestions; the search effect is a total function into suggestion
lists, so no such failure propagates as a thrown error. -/
theorem c9_normalize_failure_empty_suggestions (query : String) (outcome : NormFetch)
    (hfail : normFetchFails outcome = true) :
    searchSuggestions query outcome = [] := by
  cases outcome with
  | transportError => simp [searchSuggestions, apiNormalize]
  | httpError status => simp [searchSuggestions, apiNormalize]
  | badJson => simp [searchSuggestions, apiNormalize]
  | ok canonical =>
    cases canonical with
    | none => simp [searchSuggestions, apiNormalize]
    | some l => simp [normFetchFails] at hfail

/-- Witness for C9: a malformed-JSON outcome produces empty suggestions
for a non-empty query. -/
theorem c9_normalize_failure_empty_suggestions_witness :
    searchSuggestions "warfarin" NormFetch.badJson = [] :=
  c9_normalize_failure_empty_suggestions "warfarin" NormFetch.badJson (by decide)

/-- Claim C10: every item emitted by the normalization endpoint carries
type `"Drug"`; the backend never emits `"Supplement"` or `"Food"` even
though the frontend `CanonicalType` declares all three. -/
theorem c10_normalize_emits_only_drug (q : Option String)
    (upstream : Except Unit (Option (List RxCandidate))) (item : BackendItem)
    (hmem : item ∈ GET_normalize q upstream) :
    item.type = "Drug" ∧ item.type ≠ "Supplement" ∧ item.type ≠ "Food" := by
  have htype : item.type = "Drug" := by
    unfold GET_normalize at hmem
    by_cases hq : strFalsy q = true
    · rw [if_pos hq] at hmem
      cases hmem
    · rw [if_neg hq] at hmem
      obtain ⟨c, _, rfl⟩ := List.mem_map.mp hmem
      rfl
  refine ⟨htype, ?_, ?_⟩ <;> rw [htype] <;> decide

/-- Witness for C10: a concrete normalization run emits the Warfarin
item with type `"Drug"`. -/
theorem c10_normalize_emits_only_drug_witness :
    ({ id := "11289", display := "Warfarin", type := "Drug", rxCui := some "11289" } :
      BackendItem).type = "Drug" :=
  (c10_normalize_emits_only_drug (some "warfarin")
    (Except.ok (some [{ rxcui := "11289", name := "Warfarin" }]))
    { id := "11289", display := "Warfarin", type := "Drug", rxCui := some "11289" }
    (by decide)).1

end MedMap
